import Mathlib

/-!
Shallow embedding of `src/redis/redis_migration.py` (the `migrate` click
command).  Python byte-string keys and payloads are modelled as `String`,
the credential CLI arguments as `List Char` (so that Python's
`str.split(":")` can be modelled character by character), TTLs as `Int`
(PTTL returns -1 for "no expiration"), and the two Redis endpoints as
response oracles (`SourceWorld`, `DestWorld`).  Running `migrate` produces
an `Outcome` together with the ordered trace of network calls issued, so
that precondition/abort claims ("zero network calls"), dry-run frame
claims ("no mutating destination command") and cursor-termination claims
("number of scan calls") can all be stated about the same embedding.
-/

namespace RedisMigration

abbrev Key := String
abbrev Payload := String

/-- Raw per-key result of a pipelined RESTORE on the destination:
`b'OK'` or an error reply object whose `args[0]` is `msg`. -/
inductive RResult where
  | ok : RResult
  | err (msg : String) : RResult
deriving DecidableEq, Repr

/-- One network round-trip command, tagged with its target endpoint:
`dbsizeCall`, `scanCall`, `pttl`, `dump` go to the source;
`flushdb`, `restoreCall`, `typeCall` go to the destination. -/
inductive NetCall where
  | flushdb : NetCall
  | dbsizeCall : NetCall
  | scanCall (cursor : Nat) : NetCall
  | pttl (key : Key) : NetCall
  | dump (key : Key) : NetCall
  | restoreCall (key : Key) (ttl : Int) (data : Payload) : NetCall
  | typeCall (key : Key) : NetCall
deriving DecidableEq, Repr

/-- Final state of one `migrate` invocation. -/
inductive Outcome where
  | abortedSameHost : Outcome
  | authError : Outcome
  | noKeys : Outcome
  | scanExhausted : Outcome
  | fatal (key : Key) (msg : String) : Outcome
  | done (vanished already : Nat) : Outcome
deriving DecidableEq, Repr

/-- The CLI arguments of `migrate` (click arguments and options). -/
structure Config where
  srchost : String
  srchostauth : List Char
  srchostport : Nat
  dsthost : String
  dsthostauth : List Char
  dsthostport : Nat
  dsthostcacert : String
  sslsrc : Bool
  ssldst : Bool
  db : Nat
  flush : Bool
  dryrun : Bool

/-- Source endpoint as a response oracle: `dbsize`, the successive
`scan` replies (returned cursor and key batch), and per key the
`(PTTL, DUMP)` reply, `none` meaning the key vanished before DUMP. -/
structure SourceWorld where
  dbsize : Nat
  scans : List (Nat × List Key)
  fetch : Key → Int × Option Payload

/-- Destination endpoint as a response oracle: per key the RESTORE
reply and the TYPE reply (`"none"` when the key is absent). -/
structure DestWorld where
  restore : Key → RResult
  typeOf : Key → String

/-- Python's `s.split(sep)` for a one-character separator: splits on
every occurrence, keeping empty fields (`"".split(":") == [""]`,
`":".split(":") == ["", ""]`). -/
def pySplit (sep : Char) : List Char → List (List Char)
  | [] => [[]]
  | c :: rest =>
    match pySplit sep rest with
    | [] => [[c]]
    | g :: gs => if c = sep then [] :: g :: gs else (c :: g) :: gs

/-- A parsed credential argument: either `username:password` or a bare
password. -/
inductive Cred where
  | userPass (u p : List Char) : Cred
  | passOnly (p : List Char) : Cred
deriving DecidableEq, Repr

/-- Lines 46-50 / 52-56: `if ":" in auth: username, password =
auth.split(":")`.  The tuple unpacking raises `ValueError` unless the
split yields exactly two parts. -/
def parseAuth (auth : List Char) : Except Unit Cred :=
  if ':' ∈ auth then
    match pySplit ':' auth with
    | [u, p] => Except.ok (Cred.userPass u p)
    | _ => Except.error ()
  else Except.ok (Cred.passOnly auth)

/-- `parseAuth` succeeded (the client constructor is reached). -/
def authOk (auth : List Char) : Bool :=
  match parseAuth auth with
  | Except.ok _ => true
  | Except.error _ => false

/-- Lines 89-91: PTTL's -1 ("key exists but has no TTL") is replaced
by 0 before RESTORE. -/
def normTTL (t : Int) : Int := if t = -1 then 0 else t

/-- Line 114: the two error texts recognised as a busy-key conflict. -/
def isBusyMsg (m : String) : Bool :=
  m == "BUSYKEY Target key name already exists." || m == "Target key name is busy."

/-- `RResult` is `b'OK'` or a busy-key conflict (the recoverable cases). -/
def okOrBusy : RResult → Bool
  | RResult.ok => true
  | RResult.err m => isBusyMsg m

/-- `RResult` is a busy-key conflict error. -/
def isBusyResult : RResult → Bool
  | RResult.ok => false
  | RResult.err m => isBusyMsg m

/-- Lines 105-118, commit branch: walk the `zip(keys, results)` pairs;
`b'OK'` passes, a busy-key conflict increments `already_existing`, any
other error raises immediately, surfacing the zipped key name and the
error text.  Returns the `already_existing` increment and the raised
`(key, error)` if any. -/
def classifyCommit : List (Key × RResult) → Nat × Option (Key × String)
  | [] => (0, none)
  | (_, RResult.ok) :: rest => classifyCommit rest
  | (k, RResult.err m) :: rest =>
    if isBusyMsg m then
      let r := classifyCommit rest
      (r.1 + 1, r.2)
    else (0, some (k, m))

/-- Result of one iteration of the `while True` loop body. -/
structure BatchOut where
  van : Nat
  already : Nat
  trace : List NetCall
  err : Option (Key × String)
deriving Repr

/-- Lines 78-118: one loop iteration.  Scan (the cursor argument is
recorded in the trace), pipeline PTTL+DUMP for every key, normalize the
TTL, queue RESTORE (or TYPE on dry-run) for every key whose DUMP was
non-nil, count vanished keys, execute, then classify.  Note the faithful
`zip(keys, results)` on lines 105: `keys` is the full scanned batch while
`results` only covers the keys actually queued. -/
def processBatch (fetch : Key → Int × Option Payload) (restore : Key → RResult)
    (typeOf : Key → String) (flush dryrun : Bool) (cursorArg : Nat)
    (keys : List Key) : BatchOut :=
  let triples : List (Key × Int × Option Payload) := keys.map (fun k => (k, fetch k))
  let srcCalls : List NetCall := keys.flatMap (fun k => [NetCall.pttl k, NetCall.dump k])
  let processed : List (Key × Int × Payload) := triples.filterMap (fun p =>
    match p.2.2 with
    | some d => some (p.1, normTTL p.2.1, d)
    | none => none)
  let vanInc := (triples.filter (fun p => p.2.2.isNone)).length
  let destCmds : List NetCall := processed.map (fun q =>
    if dryrun then NetCall.typeCall q.1 else NetCall.restoreCall q.1 q.2.1 q.2.2)
  let classified : Nat × Option (Key × String) :=
    if dryrun then
      (((keys.zip (processed.map (fun q => typeOf q.1))).filter
          (fun p => !flush && !(p.2 == "none"))).length, none)
    else
      classifyCommit (keys.zip (processed.map (fun q => restore q.1)))
  { van := vanInc
    already := classified.1
    trace := NetCall.scanCall cursorArg :: (srcCalls ++ destCmds)
    err := classified.2 }

/-- Lines 77-124: the `while True` loop, driven by the remaining scan
replies.  `cursorArg` is the cursor passed to the next scan call; the
loop breaks when a reply's cursor is 0 (after processing that batch) and
raising inside a batch aborts the run.  If the oracle runs out of scan
replies the run is `scanExhausted` (the real server always answers). -/
def runLoop (fetch : Key → Int × Option Payload) (restore : Key → RResult)
    (typeOf : Key → String) (flush dryrun : Bool) :
    List (Nat × List Key) → Nat → Nat → Nat → Outcome × List NetCall
  | [], _, _, _ => (Outcome.scanExhausted, [])
  | (c, keys) :: rest, cursorArg, van, already =>
    let b := processBatch fetch restore typeOf flush dryrun cursorArg keys
    match b.err with
    | some km => (Outcome.fatal km.1 km.2, b.trace)
    | none =>
      if c = 0 then
        (Outcome.done (van + b.van) (already + b.already), b.trace)
      else
        let r := runLoop fetch restore typeOf flush dryrun rest c (van + b.van) (already + b.already)
        (r.1, b.trace ++ r.2)

/-- Lines 58-59: `if flush and not dryrun: dest.flushdb()` — the calls
that step issues. -/
def flushTrace (cfg : Config) : List NetCall :=
  if cfg.flush && !cfg.dryrun then [NetCall.flushdb] else []

/-- Lines 41-128: the whole `migrate` command.  Same-host guard, both
credential splits, optional FLUSHDB (skipped on dry-run), DBSIZE and the
zero-size early return, then the scan loop starting at cursor 0. -/
def migrate (cfg : Config) (src : SourceWorld) (dst : DestWorld) :
    Outcome × List NetCall :=
  if cfg.srchost == cfg.dsthost then (Outcome.abortedSameHost, [])
  else
    match parseAuth cfg.srchostauth with
    | Except.error _ => (Outcome.authError, [])
    | Except.ok _ =>
      match parseAuth cfg.dsthostauth with
      | Except.error _ => (Outcome.authError, [])
      | Except.ok _ =>
        if src.dbsize = 0 then (Outcome.noKeys, flushTrace cfg ++ [NetCall.dbsizeCall])
        else
          ((runLoop src.fetch dst.restore dst.typeOf cfg.flush cfg.dryrun
              src.scans 0 0 0).1,
            flushTrace cfg ++ NetCall.dbsizeCall ::
              (runLoop src.fetch dst.restore dst.typeOf cfg.flush cfg.dryrun
                src.scans 0 0 0).2)

/-- The destination command (RESTORE or TYPE) addressed to key `k`. -/
def isDestCmdFor (k : Key) : NetCall → Bool
  | NetCall.restoreCall k2 _ _ => k2 == k
  | NetCall.typeCall k2 => k2 == k
  | _ => false

/-- A call that mutates the destination keyspace. -/
def mutatesDest : NetCall → Bool
  | NetCall.flushdb => true
  | NetCall.restoreCall _ _ _ => true
  | _ => false

/-- Any call addressed to the destination endpoint. -/
def isDestCall : NetCall → Bool
  | NetCall.flushdb => true
  | NetCall.restoreCall _ _ _ => true
  | NetCall.typeCall _ => true
  | _ => false

/-- The call is a SCAN round-trip. -/
def isScan : NetCall → Bool
  | NetCall.scanCall _ => true
  | _ => false

/-- Number of SCAN round-trips in a trace. -/
def countScans (tr : List NetCall) : Nat := (tr.filter isScan).length

/-! ### Concrete invocations used to evaluate the model -/

/-- A plain commit-mode invocation with distinct hosts. -/
def cfgCommit : Config :=
  { srchost := "s"
    srchostauth := ['p']
    srchostport := 6379
    dsthost := "d"
    dsthostauth := ['q']
    dsthostport := 6380
    dsthostcacert := "ca"
    sslsrc := false
    ssldst := false
    db := 0
    flush := false
    dryrun := false }

/-- A dry-run invocation with distinct hosts. -/
def cfgDry : Config :=
  { cfgCommit with dryrun := true }

/-- A dry-run invocation that also requests a destination flush. -/
def cfgDryFlush : Config :=
  { cfgCommit with dryrun := true, flush := true }

/-- Identical host names but different ports and database indices. -/
def cfgSameHost : Config :=
  { cfgCommit with
      srchost := "h"
      dsthost := "h"
      srchostport := 1111
      dsthostport := 2222
      db := 3 }

/-- A source credential argument holding two colons. -/
def cfgBadSrcAuth : Config :=
  { cfgCommit with srchostauth := ['u', ':', 'p', ':', 'q'] }

/-- One-key source whose key has no TTL (PTTL returns -1). -/
def srcOne : SourceWorld :=
  { dbsize := 1
    scans := [(0, ["k"])]
    fetch := fun _ => (-1, some "v") }

/-- Two-batch source: the first scan returns cursor 5, the second 0. -/
def srcTwo : SourceWorld :=
  { dbsize := 3
    scans := [(5, ["a"]), (0, ["b"])]
    fetch := fun _ => (10, some "v") }

/-- Source where key "a" vanishes between SCAN and DUMP. -/
def srcVanish : SourceWorld :=
  { dbsize := 2
    scans := [(0, ["a", "b"])]
    fetch := fun k => if k = "a" then (100, none) else (100, some "v") }

/-- An empty source keyspace. -/
def srcEmpty : SourceWorld :=
  { dbsize := 0
    scans := []
    fetch := fun _ => (0, none) }

/-- Destination that accepts every RESTORE and holds no keys. -/
def dstOk : DestWorld :=
  { restore := fun _ => RResult.ok
    typeOf := fun _ => "none" }

/-- Destination whose RESTORE of key "b" fails with an unclassified error. -/
def dstBoom : DestWorld :=
  { restore := fun k => if k = "b" then RResult.err "boom" else RResult.ok
    typeOf := fun _ => "none" }

/-- Destination that already holds every key: RESTORE reports the busy-key
conflict and TYPE reports an existing kind. -/
def dstBusy : DestWorld :=
  { restore := fun _ => RResult.err "BUSYKEY Target key name already exists."
    typeOf := fun _ => "string" }

end RedisMigration

namespace RedisMigration

/-! ### Lemmas about the credential split -/

lemma pySplit_ne_nil (sep : Char) (l : List Char) : pySplit sep l ≠ [] := by
  cases l with
  | nil => simp [pySplit]
  | cons c rest =>
    simp only [pySplit]
    cases h : pySplit sep rest with
    | nil => simp
    | cons g gs => by_cases hc : c = sep <;> simp [hc]

lemma pySplit_length (sep : Char) (l : List Char) :
    (pySplit sep l).length = l.count sep + 1 := by
  induction l with
  | nil => simp [pySplit]
  | cons c rest ih =>
    simp only [pySplit]
    cases h : pySplit sep rest with
    | nil => exact absurd h (pySplit_ne_nil sep rest)
    | cons g gs =>
      have ih2 : gs.length + 1 = List.count sep rest + 1 := by
        rw [h] at ih; simpa using ih
      by_cases hc : c = sep <;> simp [hc, List.count_cons] <;> omega

lemma pySplit_count_zero {sep : Char} {l : List Char} (h : l.count sep = 0) :
    pySplit sep l = [l] := by
  induction l with
  | nil => simp [pySplit]
  | cons c rest ih =>
    have hcs : ¬(c = sep) := by
      intro hc
      simp [List.count_cons, hc] at h
    have hrest : rest.count sep = 0 := by
      simp [List.count_cons, hcs] at h
      exact h
    simp only [pySplit]
    rw [ih hrest]
    simp [hcs]

lemma pySplit_count_one {sep : Char} {l : List Char} (h : l.count sep = 1) :
    ∃ u p, pySplit sep l = [u, p] ∧ l = u ++ sep :: p := by
  induction l with
  | nil => simp at h
  | cons c rest ih =>
    by_cases hcs : c = sep
    · subst hcs
      have hrest : rest.count c = 0 := by
        simp [List.count_cons] at h
        exact h
      refine ⟨[], rest, ?_, by simp⟩
      simp only [pySplit]
      rw [pySplit_count_zero hrest]
      simp
    · have hrest : rest.count sep = 1 := by
        simp [List.count_cons, hcs] at h
        exact h
      obtain ⟨u, p, hps, hcat⟩ := ih hrest
      refine ⟨c :: u, p, ?_, by simp [hcat]⟩
      simp only [pySplit]
      rw [hps]
      simp [hcs]

lemma parseAuth_two_colons {auth : List Char} (h : 2 ≤ auth.count ':') :
    parseAuth auth = Except.error () := by
  have hmem : ':' ∈ auth := List.count_pos_iff.mp (by omega)
  have hlen : (pySplit ':' auth).length = auth.count ':' + 1 := pySplit_length _ _
  unfold parseAuth
  rw [if_pos hmem]
  rcases hps : pySplit ':' auth with _ | ⟨u, _ | ⟨p, _ | ⟨q, rest⟩⟩⟩
  · rfl
  · rfl
  · exfalso; rw [hps] at hlen; simp at hlen; omega
  · rfl

lemma parseAuth_one_colon {auth : List Char} (h : auth.count ':' = 1) :
    ∃ u p, parseAuth auth = Except.ok (Cred.userPass u p) ∧ auth = u ++ ':' :: p := by
  obtain ⟨u, p, hps, hcat⟩ := pySplit_count_one h
  have hmem : ':' ∈ auth := List.count_pos_iff.mp (by omega)
  refine ⟨u, p, ?_, hcat⟩
  unfold parseAuth
  rw [if_pos hmem, hps]

lemma parseAuth_no_colon {auth : List Char} (h : auth.count ':' = 0) :
    parseAuth auth = Except.ok (Cred.passOnly auth) := by
  have hmem : ':' ∉ auth := by
    rw [← List.count_pos_iff]
    omega
  unfold parseAuth
  rw [if_neg hmem]

lemma parseAuth_le_one {auth : List Char} (h : auth.count ':' ≤ 1) :
    ∃ c, parseAuth auth = Except.ok c := by
  rcases Nat.le_one_iff_eq_zero_or_eq_one.mp h with h0 | h1
  · exact ⟨_, parseAuth_no_colon h0⟩
  · obtain ⟨u, p, hps, _⟩ := parseAuth_one_colon h1
    exact ⟨_, hps⟩

end RedisMigration

namespace RedisMigration

/-! ### Lemmas about one batch iteration -/

lemma classifyCommit_recoverable (l : List (Key × RResult))
    (h : ∀ p ∈ l, okOrBusy p.2 = true) :
    classifyCommit l = ((l.filter (fun p => isBusyResult p.2)).length, none) := by
  induction l with
  | nil => simp [classifyCommit]
  | cons hd tl ih =>
    obtain ⟨k, r⟩ := hd
    have hh := h (k, r) (by simp)
    have htl : ∀ p ∈ tl, okOrBusy p.2 = true := fun p hp => h p (by simp [hp])
    cases r with
    | ok => simpa [classifyCommit, isBusyResult] using ih htl
    | err m =>
      have hb : isBusyMsg m = true := by simpa [okOrBusy] using hh
      simp [classifyCommit, hb, isBusyResult, ih htl]

lemma classifyCommit_err_none {l : List (Key × RResult)}
    (h : ∀ p ∈ l, okOrBusy p.2 = true) : (classifyCommit l).2 = none := by
  rw [classifyCommit_recoverable l h]

lemma processBatch_err_none {f : Key → Int × Option Payload} {r : Key → RResult}
    {ty : Key → String} {fl dr : Bool} {cur : Nat} {keys : List Key}
    (hok : dr = true ∨ ∀ key, okOrBusy (r key) = true) :
    (processBatch f r ty fl dr cur keys).err = none := by
  by_cases hdr : dr = true
  · simp [processBatch, hdr]
  · rcases hok with hd | hok
    · exact absurd hd hdr
    · simp only [processBatch, hdr, if_neg, Bool.false_eq_true, if_false]
      apply classifyCommit_err_none
      intro p hp
      have h2 := (List.of_mem_zip hp).2
      rcases List.mem_map.mp h2 with ⟨q, _, hq⟩
      rw [← hq]
      exact hok q.1

lemma mem_trace_processBatch {f : Key → Int × Option Payload} {r : Key → RResult}
    {ty : Key → String} {fl dr : Bool} {cur : Nat} {keys : List Key} {c : NetCall}
    (hm : c ∈ (processBatch f r ty fl dr cur keys).trace) :
    c = NetCall.scanCall cur ∨
    (∃ k ∈ keys, c = NetCall.pttl k ∨ c = NetCall.dump k) ∨
    (∃ k ∈ keys, ∃ d, (f k).2 = some d ∧
      c = (if dr then NetCall.typeCall k
           else NetCall.restoreCall k (normTTL (f k).1) d)) := by
  simp only [processBatch, List.mem_cons, List.mem_append, List.mem_flatMap,
    List.mem_map, List.mem_filterMap] at hm
  rcases hm with h0 | hsrc | hdst
  · exact Or.inl h0
  · refine Or.inr (Or.inl ?_)
    rcases hsrc with ⟨k, hk, hck⟩
    exact ⟨k, hk, by simpa using hck⟩
  · refine Or.inr (Or.inr ?_)
    rcases hdst with ⟨q, ⟨p, ⟨k, hk, hpk⟩, hpq⟩, hcq⟩
    subst hpk
    rcases hfd : (f k).2 with _ | d
    · rw [hfd] at hpq; simp at hpq
    · rw [hfd] at hpq
      simp at hpq
      refine ⟨k, hk, d, hfd, ?_⟩
      rw [← hcq, ← hpq]

lemma processBatch_pttl_mem {f : Key → Int × Option Payload} {r : Key → RResult}
    {ty : Key → String} {fl dr : Bool} {cur : Nat} {keys : List Key} {k : Key}
    (hk : k ∈ keys) : NetCall.pttl k ∈ (processBatch f r ty fl dr cur keys).trace := by
  simp only [processBatch, List.mem_cons, List.mem_append, List.mem_flatMap]
  exact Or.inr (Or.inl ⟨k, hk, by simp⟩)

lemma processBatch_van {f : Key → Int × Option Payload} {r : Key → RResult}
    {ty : Key → String} {fl dr : Bool} {cur : Nat} {keys : List Key} :
    (processBatch f r ty fl dr cur keys).van
      = (keys.filter (fun k => ((f k).2).isNone)).length := by
  simp only [processBatch]
  rw [List.filter_map, List.length_map]
  rfl

lemma processBatch_already_dryflush {f : Key → Int × Option Payload} {r : Key → RResult}
    {ty : Key → String} {cur : Nat} {keys : List Key} :
    (processBatch f r ty true true cur keys).already = 0 := by
  simp [processBatch]

lemma countScans_processBatch {f : Key → Int × Option Payload} {r : Key → RResult}
    {ty : Key → String} {fl dr : Bool} {cur : Nat} {keys : List Key} :
    countScans (processBatch f r ty fl dr cur keys).trace = 1 := by
  simp only [processBatch, countScans, List.filter_cons, List.filter_append]
  have h1 : (keys.flatMap fun k => [NetCall.pttl k, NetCall.dump k]).filter isScan = [] := by
    rw [List.filter_eq_nil_iff]
    intro c hc
    rcases List.mem_flatMap.mp hc with ⟨k, _, hck⟩
    rcases (by simpa using hck : c = NetCall.pttl k ∨ c = NetCall.dump k) with h | h <;>
      simp [h, isScan]
  have h2 : ∀ (l : List (Key × Int × Payload)),
      (l.map fun q => if dr then NetCall.typeCall q.1
        else NetCall.restoreCall q.1 q.2.1 q.2.2).filter isScan = [] := by
    intro l
    rw [List.filter_eq_nil_iff]
    intro c hc
    rcases List.mem_map.mp hc with ⟨q, _, hq⟩
    by_cases hdr : dr <;> simp [hdr] at hq <;> simp [← hq, isScan]
  rw [h1, h2]
  simp [isScan]

end RedisMigration

namespace RedisMigration

/-! ### Lemmas about the scan loop -/

lemma runLoop_cons_eq (f : Key → Int × Option Payload) (r : Key → RResult)
    (ty : Key → String) (fl dr : Bool) (c : Nat) (keys : List Key)
    (rest : List (Nat × List Key)) (cur v a : Nat) :
    runLoop f r ty fl dr ((c, keys) :: rest) cur v a =
      match (processBatch f r ty fl dr cur keys).err with
      | some km => (Outcome.fatal km.1 km.2, (processBatch f r ty fl dr cur keys).trace)
      | none =>
        if c = 0 then
          (Outcome.done (v + (processBatch f r ty fl dr cur keys).van)
              (a + (processBatch f r ty fl dr cur keys).already),
            (processBatch f r ty fl dr cur keys).trace)
        else
          ((runLoop f r ty fl dr rest c (v + (processBatch f r ty fl dr cur keys).van)
              (a + (processBatch f r ty fl dr cur keys).already)).1,
            (processBatch f r ty fl dr cur keys).trace ++
              (runLoop f r ty fl dr rest c (v + (processBatch f r ty fl dr cur keys).van)
                (a + (processBatch f r ty fl dr cur keys).already)).2) := rfl

lemma runLoop_cons_fatal {f : Key → Int × Option Payload} {r : Key → RResult}
    {ty : Key → String} {fl dr : Bool} {c : Nat} {keys : List Key}
    {rest : List (Nat × List Key)} {cur v a : Nat} {km : Key × String}
    (hb : (processBatch f r ty fl dr cur keys).err = some km) :
    runLoop f r ty fl dr ((c, keys) :: rest) cur v a =
      (Outcome.fatal km.1 km.2, (processBatch f r ty fl dr cur keys).trace) := by
  rw [runLoop_cons_eq, hb]

lemma runLoop_cons_last {f : Key → Int × Option Payload} {r : Key → RResult}
    {ty : Key → String} {fl dr : Bool} {keys : List Key}
    {rest : List (Nat × List Key)} {cur v a : Nat}
    (hb : (processBatch f r ty fl dr cur keys).err = none) :
    runLoop f r ty fl dr ((0, keys) :: rest) cur v a =
      (Outcome.done (v + (processBatch f r ty fl dr cur keys).van)
          (a + (processBatch f r ty fl dr cur keys).already),
        (processBatch f r ty fl dr cur keys).trace) := by
  rw [runLoop_cons_eq, hb]
  simp

lemma runLoop_cons_step {f : Key → Int × Option Payload} {r : Key → RResult}
    {ty : Key → String} {fl dr : Bool} {c : Nat} {keys : List Key}
    {rest : List (Nat × List Key)} {cur v a : Nat}
    (hb : (processBatch f r ty fl dr cur keys).err = none) (h0 : c ≠ 0) :
    runLoop f r ty fl dr ((c, keys) :: rest) cur v a =
      ((runLoop f r ty fl dr rest c (v + (processBatch f r ty fl dr cur keys).van)
          (a + (processBatch f r ty fl dr cur keys).already)).1,
        (processBatch f r ty fl dr cur keys).trace ++
          (runLoop f r ty fl dr rest c (v + (processBatch f r ty fl dr cur keys).van)
            (a + (processBatch f r ty fl dr cur keys).already)).2) := by
  rw [runLoop_cons_eq, hb]
  simp [h0]

lemma runLoop_trace_pred (P : NetCall → Prop) {f : Key → Int × Option Payload}
    {r : Key → RResult} {ty : Key → String} {fl dr : Bool}
    (hP : ∀ cur keys c, c ∈ (processBatch f r ty fl dr cur keys).trace → P c) :
    ∀ (scans : List (Nat × List Key)) (cur v a : Nat),
      ∀ c ∈ (runLoop f r ty fl dr scans cur v a).2, P c := by
  intro scans
  induction scans with
  | nil => intro cur v a c hc; simp [runLoop] at hc
  | cons hd tl ih =>
    obtain ⟨cc, keys⟩ := hd
    intro cur v a c hc
    cases hb : (processBatch f r ty fl dr cur keys).err with
    | some km =>
      rw [runLoop_cons_fatal hb] at hc
      exact hP cur keys c hc
    | none =>
      by_cases h0 : cc = 0
      · subst h0
        rw [runLoop_cons_last hb] at hc
        exact hP cur keys c hc
      · rw [runLoop_cons_step hb h0] at hc
        rcases List.mem_append.mp hc with h1 | h2
        · exact hP cur keys c h1
        · exact ih cc _ _ c h2

lemma runLoop_fst_ne_aborted {f : Key → Int × Option Payload} {r : Key → RResult}
    {ty : Key → String} {fl dr : Bool} :
    ∀ (scans : List (Nat × List Key)) (cur v a : Nat),
      (runLoop f r ty fl dr scans cur v a).1 ≠ Outcome.abortedSameHost := by
  intro scans
  induction scans with
  | nil => intro cur v a; simp [runLoop]
  | cons hd tl ih =>
    obtain ⟨cc, keys⟩ := hd
    intro cur v a
    cases hb : (processBatch f r ty fl dr cur keys).err with
    | some km => rw [runLoop_cons_fatal hb]; simp
    | none =>
      by_cases h0 : cc = 0
      · subst h0; rw [runLoop_cons_last hb]; simp
      · rw [runLoop_cons_step hb h0]; exact ih cc _ _

lemma runLoop_fst_ne_fatal {f : Key → Int × Option Payload} {r : Key → RResult}
    {ty : Key → String} {fl dr : Bool}
    (hok : dr = true ∨ ∀ key, okOrBusy (r key) = true) :
    ∀ (scans : List (Nat × List Key)) (cur v a : Nat) (k : Key) (m : String),
      (runLoop f r ty fl dr scans cur v a).1 ≠ Outcome.fatal k m := by
  intro scans
  induction scans with
  | nil => intro cur v a k m; simp [runLoop]
  | cons hd tl ih =>
    obtain ⟨cc, keys⟩ := hd
    intro cur v a k m
    have hb : (processBatch f r ty fl dr cur keys).err = none := processBatch_err_none hok
    by_cases h0 : cc = 0
    · subst h0; rw [runLoop_cons_last hb]; simp
    · rw [runLoop_cons_step hb h0]; exact ih cc _ _ k m

lemma runLoop_done_already {f : Key → Int × Option Payload} {r : Key → RResult}
    {ty : Key → String} :
    ∀ (scans : List (Nat × List Key)) (cur v a v2 a2 : Nat),
      (runLoop f r ty true true scans cur v a).1 = Outcome.done v2 a2 → a2 = a := by
  intro scans
  induction scans with
  | nil => intro cur v a v2 a2 h; simp [runLoop] at h
  | cons hd tl ih =>
    obtain ⟨cc, keys⟩ := hd
    intro cur v a v2 a2 h
    have hb : (processBatch f r ty true true cur keys).err = none :=
      processBatch_err_none (Or.inl rfl)
    by_cases h0 : cc = 0
    · subst h0
      rw [runLoop_cons_last hb] at h
      simp [processBatch_already_dryflush] at h
      exact h.2.symm
    · rw [runLoop_cons_step hb h0] at h
      have := ih cc _ _ v2 a2 h
      rwa [processBatch_already_dryflush, Nat.add_zero] at this

lemma countScans_append (l1 l2 : List NetCall) :
    countScans (l1 ++ l2) = countScans l1 + countScans l2 := by
  simp [countScans, List.filter_append]

lemma runLoop_countScans {f : Key → Int × Option Payload} {r : Key → RResult}
    {ty : Key → String} {fl dr : Bool}
    (hok : dr = true ∨ ∀ key, okOrBusy (r key) = true) :
    ∀ (pre : List (Nat × List Key)) (ks : List Key) (post : List (Nat × List Key))
      (cur v a : Nat), (∀ p ∈ pre, p.1 ≠ 0) →
      countScans (runLoop f r ty fl dr (pre ++ (0, ks) :: post) cur v a).2
          = pre.length + 1 ∧
      (∃ v2 a2, (runLoop f r ty fl dr (pre ++ (0, ks) :: post) cur v a).1
          = Outcome.done v2 a2) ∧
      ∀ k ∈ ks, NetCall.pttl k ∈ (runLoop f r ty fl dr (pre ++ (0, ks) :: post) cur v a).2 := by
  intro pre
  induction pre with
  | nil =>
    intro ks post cur v a _
    have hb : (processBatch f r ty fl dr cur ks).err = none := processBatch_err_none hok
    rw [List.nil_append, runLoop_cons_last hb]
    refine ⟨?_, ⟨_, _, rfl⟩, fun k hk => @processBatch_pttl_mem f r ty fl dr cur ks k hk⟩
    rw [countScans_processBatch]
    rfl
  | cons hd tl ih =>
    obtain ⟨cc, keys⟩ := hd
    intro ks post cur v a hpre
    have h0 : cc ≠ 0 := hpre (cc, keys) (by simp)
    have htl : ∀ p ∈ tl, p.1 ≠ 0 := fun p hp => hpre p (by simp [hp])
    have hb : (processBatch f r ty fl dr cur keys).err = none := processBatch_err_none hok
    rw [List.cons_append, runLoop_cons_step hb h0]
    obtain ⟨ihc, ihd, ihp⟩ := ih ks post cc
      (v + (processBatch f r ty fl dr cur keys).van)
      (a + (processBatch f r ty fl dr cur keys).already) htl
    refine ⟨?_, ihd, ?_⟩
    · rw [countScans_append, countScans_processBatch, ihc]
      simp only [List.length_cons]
      omega
    · intro k hk
      exact List.mem_append.mpr (Or.inr (ihp k hk))

end RedisMigration

namespace RedisMigration

/-! ### Lemmas about the whole command -/

lemma authOk_exists {auth : List Char} (h : authOk auth = true) :
    ∃ c, parseAuth auth = Except.ok c := by
  unfold authOk at h
  cases hp : parseAuth auth with
  | ok c => exact ⟨c, rfl⟩
  | error e => rw [hp] at h; simp at h

lemma mem_flushTrace {cfg : Config} {c : NetCall} (h : c ∈ flushTrace cfg) :
    c = NetCall.flushdb ∧ (cfg.flush && !cfg.dryrun) = true := by
  unfold flushTrace at h
  by_cases hf : (cfg.flush && !cfg.dryrun) = true
  · rw [if_pos hf] at h
    simp at h
    exact ⟨h, hf⟩
  · rw [if_neg hf] at h
    simp at h

lemma migrate_same_host {cfg : Config} {src : SourceWorld} {dst : DestWorld}
    (h : cfg.srchost = cfg.dsthost) :
    migrate cfg src dst = (Outcome.abortedSameHost, []) := by
  unfold migrate
  rw [if_pos (by simp [h])]

lemma migrate_loop_eq {cfg : Config} {src : SourceWorld} {dst : DestWorld}
    (hh : cfg.srchost ≠ cfg.dsthost)
    (ha : authOk cfg.srchostauth = true) (hb : authOk cfg.dsthostauth = true)
    (hsz : src.dbsize ≠ 0) :
    migrate cfg src dst =
      ((runLoop src.fetch dst.restore dst.typeOf cfg.flush cfg.dryrun
          src.scans 0 0 0).1,
        flushTrace cfg ++ NetCall.dbsizeCall ::
          (runLoop src.fetch dst.restore dst.typeOf cfg.flush cfg.dryrun
            src.scans 0 0 0).2) := by
  obtain ⟨c1, hc1⟩ := authOk_exists ha
  obtain ⟨c2, hc2⟩ := authOk_exists hb
  unfold migrate
  rw [if_neg (by simp [hh]), hc1, hc2, if_neg hsz]

lemma migrate_zero_size {cfg : Config} {src : SourceWorld} {dst : DestWorld}
    (hh : cfg.srchost ≠ cfg.dsthost)
    (ha : authOk cfg.srchostauth = true) (hb : authOk cfg.dsthostauth = true)
    (hsz : src.dbsize = 0) :
    migrate cfg src dst = (Outcome.noKeys, flushTrace cfg ++ [NetCall.dbsizeCall]) := by
  obtain ⟨c1, hc1⟩ := authOk_exists ha
  obtain ⟨c2, hc2⟩ := authOk_exists hb
  unfold migrate
  rw [if_neg (by simp [hh]), hc1, hc2, if_pos hsz]

lemma migrate_src_auth_err {cfg : Config} {src : SourceWorld} {dst : DestWorld}
    {e : Unit} (hh : cfg.srchost ≠ cfg.dsthost)
    (hpa : parseAuth cfg.srchostauth = Except.error e) :
    migrate cfg src dst = (Outcome.authError, []) := by
  unfold migrate
  rw [if_neg (by simp [hh]), hpa]

lemma migrate_dst_auth_err {cfg : Config} {src : SourceWorld} {dst : DestWorld}
    {c1 : Cred} {e : Unit} (hh : cfg.srchost ≠ cfg.dsthost)
    (hpa : parseAuth cfg.srchostauth = Except.ok c1)
    (hpb : parseAuth cfg.dsthostauth = Except.error e) :
    migrate cfg src dst = (Outcome.authError, []) := by
  unfold migrate
  rw [if_neg (by simp [hh]), hpa, hpb]

lemma migrate_trace_pred (P : NetCall → Prop) (cfg : Config) (src : SourceWorld)
    (dst : DestWorld)
    (hbatch : ∀ cur keys c,
      c ∈ (processBatch src.fetch dst.restore dst.typeOf cfg.flush cfg.dryrun
        cur keys).trace → P c)
    (hflush : (cfg.flush && !cfg.dryrun) = true → P NetCall.flushdb)
    (hdb : P NetCall.dbsizeCall) :
    ∀ c ∈ (migrate cfg src dst).2, P c := by
  intro c hc
  by_cases hh : cfg.srchost = cfg.dsthost
  · rw [migrate_same_host hh] at hc
    simp at hc
  · cases hpa : parseAuth cfg.srchostauth with
    | error e =>
      rw [migrate_src_auth_err hh hpa] at hc
      simp at hc
    | ok c1 =>
      cases hpb : parseAuth cfg.dsthostauth with
      | error e =>
        rw [migrate_dst_auth_err hh hpa hpb] at hc
        simp at hc
      | ok c2 =>
        have ha : authOk cfg.srchostauth = true := by unfold authOk; rw [hpa]
        have hb : authOk cfg.dsthostauth = true := by unfold authOk; rw [hpb]
        by_cases hsz : src.dbsize = 0
        · rw [migrate_zero_size hh ha hb hsz] at hc
          rcases List.mem_append.mp hc with h1 | h2
          · exact ((mem_flushTrace h1).1 ▸ hflush (mem_flushTrace h1).2)
          · simp at h2
            rw [h2]
            exact hdb
        · rw [migrate_loop_eq hh ha hb hsz] at hc
          rcases List.mem_append.mp hc with h1 | h2
          · exact ((mem_flushTrace h1).1 ▸ hflush (mem_flushTrace h1).2)
          · rcases List.mem_cons.mp h2 with h3 | h4
            · rw [h3]; exact hdb
            · exact runLoop_trace_pred P hbatch src.scans 0 0 0 c h4

end RedisMigration

namespace RedisMigration

/-! ### Case analysis of a whole run -/

lemma migrate_fst_cases (cfg : Config) (src : SourceWorld) (dst : DestWorld) :
    (cfg.srchost = cfg.dsthost ∧
      (migrate cfg src dst).1 = Outcome.abortedSameHost) ∨
    (migrate cfg src dst).1 = Outcome.authError ∨
    (migrate cfg src dst).1 = Outcome.noKeys ∨
    (migrate cfg src dst).1 = (runLoop src.fetch dst.restore dst.typeOf
      cfg.flush cfg.dryrun src.scans 0 0 0).1 := by
  by_cases hh : cfg.srchost = cfg.dsthost
  · exact Or.inl ⟨hh, by rw [migrate_same_host hh]⟩
  · cases hpa : parseAuth cfg.srchostauth with
    | error e => exact Or.inr (Or.inl (by rw [migrate_src_auth_err hh hpa]))
    | ok c1 =>
      cases hpb : parseAuth cfg.dsthostauth with
      | error e =>
        exact Or.inr (Or.inl (by rw [migrate_dst_auth_err hh hpa hpb]))
      | ok c2 =>
        have ha : authOk cfg.srchostauth = true := by unfold authOk; rw [hpa]
        have hb : authOk cfg.dsthostauth = true := by unfold authOk; rw [hpb]
        by_cases hsz : src.dbsize = 0
        · exact Or.inr (Or.inr (Or.inl (by rw [migrate_zero_size hh ha hb hsz])))
        · exact Or.inr (Or.inr (Or.inr (by rw [migrate_loop_eq hh ha hb hsz])))

lemma migrate_trace_cases (cfg : Config) (src : SourceWorld) (dst : DestWorld) :
    (migrate cfg src dst).2 = [] ∨
    (migrate cfg src dst).2 = flushTrace cfg ++ [NetCall.dbsizeCall] ∨
    (src.dbsize ≠ 0 ∧
      (migrate cfg src dst).2 = flushTrace cfg ++ NetCall.dbsizeCall ::
        (runLoop src.fetch dst.restore dst.typeOf cfg.flush cfg.dryrun
          src.scans 0 0 0).2) := by
  by_cases hh : cfg.srchost = cfg.dsthost
  · exact Or.inl (by rw [migrate_same_host hh])
  · cases hpa : parseAuth cfg.srchostauth with
    | error e => exact Or.inl (by rw [migrate_src_auth_err hh hpa])
    | ok c1 =>
      cases hpb : parseAuth cfg.dsthostauth with
      | error e => exact Or.inl (by rw [migrate_dst_auth_err hh hpa hpb])
      | ok c2 =>
        have ha : authOk cfg.srchostauth = true := by unfold authOk; rw [hpa]
        have hb : authOk cfg.dsthostauth = true := by unfold authOk; rw [hpb]
        by_cases hsz : src.dbsize = 0
        · exact Or.inr (Or.inl (by rw [migrate_zero_size hh ha hb hsz]))
        · exact Or.inr (Or.inr ⟨hsz, by rw [migrate_loop_eq hh ha hb hsz]⟩)

lemma migrate_fst_ne_aborted {cfg : Config} {src : SourceWorld} {dst : DestWorld}
    (hh : cfg.srchost ≠ cfg.dsthost) :
    (migrate cfg src dst).1 ≠ Outcome.abortedSameHost := by
  rcases migrate_fst_cases cfg src dst with ⟨he, _⟩ | h | h | h
  · exact absurd he hh
  · rw [h]; simp
  · rw [h]; simp
  · rw [h]; exact runLoop_fst_ne_aborted src.scans 0 0 0

lemma migrate_fst_ne_fatal {cfg : Config} {src : SourceWorld} {dst : DestWorld}
    (hok : cfg.dryrun = true ∨ ∀ key, okOrBusy (dst.restore key) = true) :
    ∀ k m, (migrate cfg src dst).1 ≠ Outcome.fatal k m := by
  intro k m
  rcases migrate_fst_cases cfg src dst with ⟨_, h⟩ | h | h | h <;> rw [h]
  · simp
  · simp
  · simp
  · exact runLoop_fst_ne_fatal hok src.scans 0 0 0 k m

lemma countScans_flushTrace (cfg : Config) : countScans (flushTrace cfg) = 0 := by
  by_cases hf : (cfg.flush && !cfg.dryrun) = true <;>
    simp [flushTrace, hf, countScans, isScan]

end RedisMigration

namespace RedisMigration

lemma countScans_cons_db (l : List NetCall) :
    countScans (NetCall.dbsizeCall :: l) = countScans l := by
  simp [countScans, isScan, List.filter_cons]

/-- C1: in commit mode an unclassified RESTORE error halts the run, but the
key surfaced next to the raw error is taken from `zip(keys, results)` where
`results` omits vanished keys: with keys `["a", "b"]`, `"a"` vanished and
`"b"`'s RESTORE failing with "boom", the run surfaces key `"a"` — a key for
which no destination command was ever issued — instead of `"b"`. -/
theorem C1_fatal_key_misaligned :
    (migrate cfgCommit srcVanish dstBoom).1 = Outcome.fatal "a" "boom" ∧
    NetCall.restoreCall "b" 100 "v" ∈ (migrate cfgCommit srcVanish dstBoom).2 ∧
    ∀ c ∈ (migrate cfgCommit srcVanish dstBoom).2, isDestCmdFor "a" c = false := by
  decide

/-- C2: every RESTORE issued to the destination carries the normalized TTL
of the key it writes (and that key's fetched payload); the normalization
maps -1 to 0 and leaves every non-negative TTL unchanged. -/
theorem C2_ttl_normalized (cfg : Config) (src : SourceWorld) (dst : DestWorld) :
    (∀ c ∈ (migrate cfg src dst).2, ∀ (k : Key) (t : Int) (d : Payload),
      c = NetCall.restoreCall k t d →
        t = normTTL (src.fetch k).1 ∧ (src.fetch k).2 = some d) ∧
    normTTL (-1) = 0 ∧ (∀ t : Int, 0 ≤ t → normTTL t = t) := by
  refine ⟨?_, by simp [normTTL], fun t ht => by unfold normTTL; rw [if_neg (by omega)]⟩
  refine migrate_trace_pred
    (fun c => ∀ (k : Key) (t : Int) (d : Payload),
      c = NetCall.restoreCall k t d →
        t = normTTL (src.fetch k).1 ∧ (src.fetch k).2 = some d)
    cfg src dst ?_ ?_ ?_
  · intro cur keys c hc k t d hcd
    subst hcd
    rcases mem_trace_processBatch hc with h0 | ⟨k2, _, h1 | h1⟩ | ⟨k2, _, d2, hfd, h2⟩
    · simp at h0
    · simp at h1
    · simp at h1
    · by_cases hdr : cfg.dryrun = true
      · rw [if_pos hdr] at h2
        simp at h2
      · rw [if_neg hdr] at h2
        injection h2 with hk ht hd
        subst hk
        exact ⟨ht, hd ▸ hfd⟩
  · intro _ k t d h
    simp at h
  · intro k t d h
    simp at h

/-- C3: a destination result carrying one of the two busy-key conflict
texts is counted as already-existing and never raised: a result list of
only `b'OK'`s and conflicts classifies with no raised error, and a run
whose destination answers only `b'OK'` or conflicts never ends fatally. -/
theorem C3_conflict_recoverable (l : List (Key × RResult))
    (hl : ∀ p ∈ l, okOrBusy p.2 = true)
    (cfg : Config) (src : SourceWorld) (dst : DestWorld)
    (hd : ∀ key, okOrBusy (dst.restore key) = true) :
    classifyCommit l = ((l.filter (fun p => isBusyResult p.2)).length, none) ∧
    ∀ k m, (migrate cfg src dst).1 ≠ Outcome.fatal k m :=
  ⟨classifyCommit_recoverable l hl, migrate_fst_ne_fatal (Or.inr hd)⟩

/-- C4: with a zero-size keyspace no SCAN is ever issued; otherwise the
loop stops exactly at the first scan reply whose cursor is 0, after
issuing one SCAN per reply up to and including it, still fetching the
final reply's batch (witnessed by its PTTL calls), and completes. -/
theorem C4_cursor_termination (cfg : Config) (src : SourceWorld) (dst : DestWorld) :
    (src.dbsize = 0 → countScans (migrate cfg src dst).2 = 0) ∧
    (∀ (pre : List (Nat × List Key)) (ks : List Key) (post : List (Nat × List Key)),
      cfg.srchost ≠ cfg.dsthost → authOk cfg.srchostauth = true →
      authOk cfg.dsthostauth = true → src.dbsize ≠ 0 →
      src.scans = pre ++ (0, ks) :: post → (∀ p ∈ pre, p.1 ≠ 0) →
      (∀ key, okOrBusy (dst.restore key) = true) →
      countScans (migrate cfg src dst).2 = pre.length + 1 ∧
      (∃ v a, (migrate cfg src dst).1 = Outcome.done v a) ∧
      ∀ k ∈ ks, NetCall.pttl k ∈ (migrate cfg src dst).2) := by
  constructor
  · intro hsz
    rcases migrate_trace_cases cfg src dst with h | h | ⟨hne, h⟩
    · rw [h]; rfl
    · rw [h, countScans_append, countScans_flushTrace]; rfl
    · exact absurd hsz hne
  · intro pre ks post hh ha hb hsz hscan hpre hok
    have hm1 : (migrate cfg src dst).1 = (runLoop src.fetch dst.restore dst.typeOf
        cfg.flush cfg.dryrun src.scans 0 0 0).1 := by
      rw [migrate_loop_eq hh ha hb hsz]
    have hm2 : (migrate cfg src dst).2 = flushTrace cfg ++ NetCall.dbsizeCall ::
        (runLoop src.fetch dst.restore dst.typeOf cfg.flush cfg.dryrun
          src.scans 0 0 0).2 := by
      rw [migrate_loop_eq hh ha hb hsz]
    rw [hscan] at hm1 hm2
    obtain ⟨hcnt, ⟨v2, a2, hdone⟩, hmem⟩ :=
      runLoop_countScans (Or.inr hok) pre ks post 0 0 0 hpre
    refine ⟨?_, ⟨v2, a2, ?_⟩, ?_⟩
    · rw [hm2, countScans_append, countScans_flushTrace, countScans_cons_db, hcnt]
      omega
    · rw [hm1]
      exact hdone
    · intro k hk
      rw [hm2]
      exact List.mem_append.mpr (Or.inr (List.mem_cons.mpr (Or.inr (hmem k hk))))

/-- C5: identical source and destination host arguments abort the run
with the precondition message and an empty network trace. -/
theorem C5_same_host_abort (cfg : Config) (src : SourceWorld) (dst : DestWorld)
    (h : cfg.srchost = cfg.dsthost) :
    migrate cfg src dst = (Outcome.abortedSameHost, []) :=
  migrate_same_host h

/-- C6: a dry run issues no mutating destination command — no FLUSHDB even
when flush is requested and no RESTORE — and every destination call it
does issue is a TYPE existence probe. -/
theorem C6_dryrun_frame (cfg : Config) (src : SourceWorld) (dst : DestWorld)
    (h : cfg.dryrun = true) :
    ∀ c ∈ (migrate cfg src dst).2,
      mutatesDest c = false ∧ (isDestCall c = true → ∃ k, c = NetCall.typeCall k) := by
  refine migrate_trace_pred
    (fun c => mutatesDest c = false ∧
      (isDestCall c = true → ∃ k, c = NetCall.typeCall k))
    cfg src dst ?_ ?_ ?_
  · intro cur keys c hc
    rcases mem_trace_processBatch hc with h0 | ⟨k, _, h1 | h1⟩ | ⟨k, _, d, hfd, h2⟩
    · subst h0
      exact ⟨rfl, by intro hx; simp [isDestCall] at hx⟩
    · subst h1
      exact ⟨rfl, by intro hx; simp [isDestCall] at hx⟩
    · subst h1
      exact ⟨rfl, by intro hx; simp [isDestCall] at hx⟩
    · rw [if_pos h] at h2
      subst h2
      exact ⟨rfl, fun _ => ⟨k, rfl⟩⟩
  · intro hcond
    rw [h] at hcond
    simp at hcond
  · exact ⟨rfl, by intro hx; simp [isDestCall] at hx⟩

/-- C7: when both flush and dry-run are requested, the final
already-existing count is 0 no matter which keys the destination holds. -/
theorem C7_dryflush_zero_already (cfg : Config) (src : SourceWorld) (dst : DestWorld)
    (hf : cfg.flush = true) (hd : cfg.dryrun = true) :
    ∀ v a, (migrate cfg src dst).1 = Outcome.done v a → a = 0 := by
  intro v a h
  rcases migrate_fst_cases cfg src dst with ⟨_, h2⟩ | h2 | h2 | h2 <;> rw [h2] at h
  · cases h
  · cases h
  · cases h
  · rw [hf, hd] at h
    exact runLoop_done_already src.scans 0 0 0 v a h

/-- C8: a key whose DUMP came back nil is never the target of any
destination command, and each batch adds to the vanished counter exactly
the number of its keys whose payload is absent. -/
theorem C8_vanished_key (cfg : Config) (src : SourceWorld) (dst : DestWorld)
    (k : Key) (h : (src.fetch k).2 = none) :
    (∀ c ∈ (migrate cfg src dst).2, isDestCmdFor k c = false) ∧
    ∀ cur keys,
      (processBatch src.fetch dst.restore dst.typeOf cfg.flush cfg.dryrun
        cur keys).van
        = (keys.filter (fun k2 => ((src.fetch k2).2).isNone)).length := by
  refine ⟨?_, fun cur keys => processBatch_van⟩
  refine migrate_trace_pred (fun c => isDestCmdFor k c = false)
    cfg src dst ?_ (fun _ => rfl) rfl
  intro cur keys c hc
  rcases mem_trace_processBatch hc with h0 | ⟨k2, _, h1 | h1⟩ | ⟨k2, _, d, hfd, h2⟩
  · subst h0; rfl
  · subst h1; rfl
  · subst h1; rfl
  · have hne : k2 ≠ k := by
      intro he
      rw [he, h] at hfd
      cases hfd
    by_cases hdr : cfg.dryrun = true
    · rw [if_pos hdr] at h2
      subst h2
      simp [isDestCmdFor, hne]
    · rw [if_neg hdr] at h2
      subst h2
      simp [isDestCmdFor, hne]

/-- C9: a credential argument with two or more colons makes the tuple
unpacking of `auth.split(":")` fail (and the run end with no network
call issued), one colon yields a `(username, password)` pair, and no
colon is used as a bare password. -/
theorem C9_auth_colon_split (auth : List Char) (cfg : Config) (src : SourceWorld)
    (dst : DestWorld) :
    (2 ≤ auth.count ':' → parseAuth auth = Except.error ()) ∧
    (auth.count ':' = 1 → ∃ u p, parseAuth auth = Except.ok (Cred.userPass u p) ∧
      auth = u ++ ':' :: p) ∧
    (auth.count ':' = 0 → parseAuth auth = Except.ok (Cred.passOnly auth)) ∧
    (cfg.srchost ≠ cfg.dsthost → 2 ≤ cfg.srchostauth.count ':' →
      migrate cfg src dst = (Outcome.authError, [])) ∧
    (cfg.srchost ≠ cfg.dsthost → cfg.srchostauth.count ':' ≤ 1 →
      2 ≤ cfg.dsthostauth.count ':' →
      migrate cfg src dst = (Outcome.authError, [])) := by
  refine ⟨fun h => parseAuth_two_colons h, fun h => parseAuth_one_colon h,
    fun h => parseAuth_no_colon h, ?_, ?_⟩
  · intro hh h2
    exact migrate_src_auth_err hh (parseAuth_two_colons h2)
  · intro hh h1 h2
    obtain ⟨c1, hc1⟩ := parseAuth_le_one h1
    exact migrate_dst_auth_err hh hc1 (parseAuth_two_colons h2)

/-- C10: the self-migration guard compares host names only — equal hosts
are rejected whatever the ports and database index, and distinct host
strings are never rejected by it. -/
theorem C10_guard_compares_hosts_only (cfg : Config) (src : SourceWorld)
    (dst : DestWorld) :
    (cfg.srchost = cfg.dsthost →
      (migrate cfg src dst).1 = Outcome.abortedSameHost) ∧
    (cfg.srchost ≠ cfg.dsthost →
      (migrate cfg src dst).1 ≠ Outcome.abortedSameHost) :=
  ⟨fun h => by rw [migrate_same_host h], fun h => migrate_fst_ne_aborted h⟩

end RedisMigration

namespace RedisMigration

/-- C2 witness: the one-key run with PTTL -1 issues its RESTORE with TTL 0. -/
theorem C2_witness :
    (0 : Int) = normTTL (srcOne.fetch "k").1 ∧ (srcOne.fetch "k").2 = some "v" :=
  (C2_ttl_normalized cfgCommit srcOne dstOk).1
    (NetCall.restoreCall "k" 0 "v") (by decide) "k" 0 "v" rfl

/-- C3 witness: a single busy-key conflict result counts as one
already-existing key and the all-conflict run never ends fatally. -/
theorem C3_witness :
    classifyCommit [("k", RResult.err "BUSYKEY Target key name already exists.")]
      = (1, none) ∧
    ∀ k m, (migrate cfgCommit srcOne dstBusy).1 ≠ Outcome.fatal k m := by
  have h := C3_conflict_recoverable
    [("k", RResult.err "BUSYKEY Target key name already exists.")]
    (by decide) cfgCommit srcOne dstBusy (by intro key; rfl)
  exact ⟨h.1.trans (by decide), h.2⟩

/-- C4 witness: the empty keyspace issues zero SCANs; the two-reply trace
(cursors 5 then 0) issues exactly two SCANs and still fetches the final
batch. -/
theorem C4_witness :
    countScans (migrate cfgCommit srcEmpty dstOk).2 = 0 ∧
    countScans (migrate cfgCommit srcTwo dstOk).2 = 2 ∧
    NetCall.pttl "b" ∈ (migrate cfgCommit srcTwo dstOk).2 := by
  have h0 := (C4_cursor_termination cfgCommit srcEmpty dstOk).1 rfl
  have h := (C4_cursor_termination cfgCommit srcTwo dstOk).2 [(5, ["a"])] ["b"] []
    (by decide) (by decide) (by decide) (by decide) rfl (by decide)
    (by intro key; rfl)
  exact ⟨h0, h.1, h.2.2 "b" (by decide)⟩

/-- C5 witness: equal host names abort with an empty trace. -/
theorem C5_witness :
    migrate cfgSameHost srcOne dstOk = (Outcome.abortedSameHost, []) :=
  C5_same_host_abort cfgSameHost srcOne dstOk rfl

/-- C6 witness: the dry-run destination probe is non-mutating. -/
theorem C6_witness : mutatesDest (NetCall.typeCall "k") = false :=
  ((C6_dryrun_frame cfgDry srcOne dstBusy rfl) (NetCall.typeCall "k") (by decide)).1

/-- C7 witness: a dry-run with flush against a destination that holds
every key still finishes with already-existing count 0. -/
theorem C7_witness :
    (migrate cfgDryFlush srcOne dstBusy).1 = Outcome.done 0 0 ∧ (0 : Nat) = 0 :=
  ⟨by decide, C7_dryflush_zero_already cfgDryFlush srcOne dstBusy rfl rfl 0 0 (by decide)⟩

/-- C8 witness: the vanished key "a" receives no destination command and
its batch counts exactly one vanished key. -/
theorem C8_witness :
    isDestCmdFor "a" (NetCall.restoreCall "b" 100 "v") = false ∧
    (processBatch srcVanish.fetch dstBoom.restore dstBoom.typeOf cfgCommit.flush
      cfgCommit.dryrun 0 ["a", "b"]).van = 1 := by
  have h := C8_vanished_key cfgCommit srcVanish dstBoom "a" rfl
  exact ⟨h.1 _ (by decide), (h.2 0 ["a", "b"]).trans (by decide)⟩

/-- C9 witness: a two-colon credential fails to parse and the run issues
no network call. -/
theorem C9_witness :
    parseAuth ['u', ':', 'p', ':', 'q'] = Except.error () ∧
    migrate cfgBadSrcAuth srcOne dstOk = (Outcome.authError, []) := by
  have h := C9_auth_colon_split ['u', ':', 'p', ':', 'q'] cfgBadSrcAuth srcOne dstOk
  exact ⟨h.1 (by decide), h.2.2.2.1 (by decide) (by decide)⟩

/-- C10 witness: equal hosts with different ports and db are rejected;
distinct hosts are not. -/
theorem C10_witness :
    (migrate cfgSameHost srcTwo dstOk).1 = Outcome.abortedSameHost ∧
    (migrate cfgCommit srcTwo dstOk).1 ≠ Outcome.abortedSameHost :=
  ⟨(C10_guard_compares_hosts_only cfgSameHost srcTwo dstOk).1 rfl,
   (C10_guard_compares_hosts_only cfgCommit srcTwo dstOk).2 (by decide)⟩

end RedisMigration
